import Mathlib

/-!
# Verification of the Contract Analysis Multi-Agent System

Shallow embedding of `contract_analysis_system.py`.

External effects are made explicit parameters:
* every hosted-model agent call (`system.agents[...].run(...)` /
  `system.manager_agent.run(...)`) is modelled by an `Except String String`
  argument — `.ok content` when the call returns that content, `.error e`
  when it raises an exception whose message is `e`;
* `datetime.now()` timestamps are abstracted by a `ts : String` argument;
* the filesystem seen by `extract_text_from_pdf` is modelled by the
  existence / readability flags that the code tests, plus the list of
  per-page `page.extract_text()` outcomes;
* the fallible steps of `save_analysis_results` (directory creation, JSON
  serialization, file write) are modelled by `Except String Unit` arguments.

Python dicts whose key sets vary at runtime (`findings`,
`consolidated_findings`, `risk_assessment`, `traceability_map`) are embedded
as ordered association lists `List (String × String)`, preserving the
insertion order of the literal dict expressions in the source.
`confidence_score` values are embedded as rationals.
-/

namespace ContractAnalysis

/-- Outcome of one external call: the returned content, or the message of the
raised exception. -/
abbrev CallResult := Except String String

/-- `AgentResponse` dataclass (`contract_analysis_system.py`, lines 21-30). -/
structure AgentResponse where
  agent_name : String
  timestamp : String
  analysis_type : String
  findings : List (String × String)
  recommendations : List String
  risk_level : String
  confidence_score : ℚ
  deriving Repr, DecidableEq

/-- The `contract_info` dict built by `analyze_contract`: it always has
exactly the keys `name`, `length`, `analysis_date`. -/
structure ContractInfo where
  name : String
  length : ℕ
  analysis_date : String
  deriving Repr, DecidableEq

/-- `ContractAnalysisResult` dataclass (`contract_analysis_system.py`,
lines 33-42). -/
structure ContractAnalysisResult where
  contract_info : ContractInfo
  agent_responses : List AgentResponse
  consolidated_findings : List (String × String)
  priority_recommendations : List String
  risk_assessment : List (String × String)
  traceability_map : List (String × String)
  analysis_timestamp : String
  deriving Repr, DecidableEq

/-- Step 1 of `analyze_contract` (lines 380-407): the try/except around the
structure agent call. On success the raw model output is stored under
`raw_response` with confidence 0.8 and risk `PENDING`; on exception a
placeholder with an `error` finding, risk `HIGH`, confidence 0.3. -/
def structureStage (ts : String) (call : CallResult) : AgentResponse :=
  match call with
  | .ok content =>
      { agent_name := "ContractStructureAgent"
        timestamp := ts
        analysis_type := "structural_analysis"
        findings := [("raw_response", content)]
        recommendations := []
        risk_level := "PENDING"
        confidence_score := 0.8 }
  | .error e =>
      { agent_name := "ContractStructureAgent"
        timestamp := ts
        analysis_type := "structural_analysis"
        findings := [("error", e)]
        recommendations := ["Manual structure review required"]
        risk_level := "HIGH"
        confidence_score := 0.3 }

/-- Step 2 of `analyze_contract` (lines 422-449): the try/except around the
legal agent call. Success: confidence 0.85, risk `PENDING`; exception:
risk `HIGH`, confidence 0.2. -/
def legalStage (ts : String) (call : CallResult) : AgentResponse :=
  match call with
  | .ok content =>
      { agent_name := "LegalFrameworkAgent"
        timestamp := ts
        analysis_type := "legal_compliance"
        findings := [("raw_response", content)]
        recommendations := []
        risk_level := "PENDING"
        confidence_score := 0.85 }
  | .error e =>
      { agent_name := "LegalFrameworkAgent"
        timestamp := ts
        analysis_type := "legal_compliance"
        findings := [("error", e)]
        recommendations := ["Legal review by qualified attorney required"]
        risk_level := "HIGH"
        confidence_score := 0.2 }

/-- Step 3 of `analyze_contract` (lines 464-491): the try/except around the
negotiation agent call. Success: confidence 0.75, risk `PENDING`; exception:
risk `MEDIUM`, confidence 0.4. -/
def negotiationStage (ts : String) (call : CallResult) : AgentResponse :=
  match call with
  | .ok content =>
      { agent_name := "NegotiationAgent"
        timestamp := ts
        analysis_type := "negotiation_strategy"
        findings := [("raw_response", content)]
        recommendations := []
        risk_level := "PENDING"
        confidence_score := 0.75 }
  | .error e =>
      { agent_name := "NegotiationAgent"
        timestamp := ts
        analysis_type := "negotiation_strategy"
        findings := [("error", e)]
        recommendations := ["Manual negotiation strategy development required"]
        risk_level := "MEDIUM"
        confidence_score := 0.4 }

/-- `analyze_contract` (lines 345-573). The four external calls are the four
`CallResult` arguments, in invocation order: structure, legal, negotiation,
manager. The list `agent_responses` is built by the three appends of the
specialist stages; the final result is then assembled in the manager
try/except (success branch lines 521-548, failure branch lines 550-573). -/
def analyze_contract (contract_text contract_name ts : String)
    (structureCall legalCall negotiationCall managerCall : CallResult) :
    ContractAnalysisResult :=
  let structure_analysis := structureStage ts structureCall
  let legal_analysis := legalStage ts legalCall
  let negotiation_analysis := negotiationStage ts negotiationCall
  let agent_responses := [structure_analysis, legal_analysis, negotiation_analysis]
  let contract_info : ContractInfo :=
    { name := contract_name, length := contract_text.length, analysis_date := ts }
  match managerCall with
  | .ok content =>
      { contract_info := contract_info
        agent_responses := agent_responses
        consolidated_findings := [("manager_synthesis", content)]
        priority_recommendations := []
        risk_assessment := []
        traceability_map :=
          [("structure_agent", "ContractStructureAgent"),
           ("legal_agent", "LegalFrameworkAgent"),
           ("negotiation_agent", "NegotiationAgent"),
           ("manager_agent", "ContractAnalysisManager")]
        analysis_timestamp := ts }
  | .error e =>
      { contract_info := contract_info
        agent_responses := agent_responses
        consolidated_findings := [("error", "Manager consolidation failed: " ++ e)]
        priority_recommendations := ["Manual review and consolidation required"]
        risk_assessment := [("overall_risk", "UNKNOWN - Analysis incomplete")]
        traceability_map :=
          [("structure_agent", "ContractStructureAgent"),
           ("legal_agent", "LegalFrameworkAgent"),
           ("negotiation_agent", "NegotiationAgent"),
           ("manager_agent", "ContractAnalysisManager (FAILED)")]
        analysis_timestamp := ts }

/-- Python `str.strip()`: drop whitespace from both ends. -/
def pyStrip (s : String) : String :=
  String.mk (((s.data.dropWhile Char.isWhitespace).reverse.dropWhile
    Char.isWhitespace).reverse)

/-- Truthiness of `page_text.strip()` in line 327: the page text is non-empty
after stripping whitespace. -/
def pageHasText (t : String) : Bool :=
  !(pyStrip t).isEmpty

/-- The page marker string `f"--- Page {page_num + 1} ---"` of line 328,
applied to the 0-based page index. -/
def pageMarker (page_num : ℕ) : String :=
  "--- Page " ++ toString (page_num + 1) ++ " ---"

/-- The `for page_num, page in enumerate(pdf_reader.pages)` loop of
lines 324-332, accumulating `text_content`: starting at 0-based index
`page_num`, each page whose `extract_text()` succeeds with text that is
non-empty after stripping contributes its marker followed by its text; a page
whose extraction raises, or whose text is blank, contributes nothing. -/
def extractPages : ℕ → List (Except String String) → List String
  | _, [] => []
  | page_num, page :: rest =>
    match page with
    | .ok page_text =>
        if pageHasText page_text then
          pageMarker page_num :: page_text :: extractPages (page_num + 1) rest
        else
          extractPages (page_num + 1) rest
    | .error _ => extractPages (page_num + 1) rest

/-- `extract_text_from_pdf` (lines 297-342). The filesystem checks of
lines 308-314 become the `pathExists` / `canRead` flags; the PDF's pages
become the list of per-page `extract_text()` outcomes. Every failure path
returns `none` (the Python `None`); the function is total, so no exception
ever escapes. -/
def extract_text_from_pdf (pathExists canRead : Bool)
    (pages : List (Except String String)) : Option String :=
  if !pathExists then none
  else if !canRead then none
  else if pages.length = 0 then none
  else
    let text_content := extractPages 0 pages
    if text_content.isEmpty then none
    else some (String.intercalate "\n" text_content)

/-- The per-character filter of line 630:
`c.isalnum() or c in (' ', '-', '_')`. -/
def isAllowedChar (c : Char) : Bool :=
  c.isAlphanum || c = ' ' || c = '-' || c = '_'

/-- `contract_name_clean` of line 630: keep only allowed characters, then
apply the trailing `.strip()`. -/
def contractNameClean (name : String) : String :=
  pyStrip (String.mk (name.data.filter isAllowedChar))

/-- The filename built at line 631:
`f"contract_analysis_{contract_name_clean}_{timestamp}.json"`. -/
def analysisFilename (name ts : String) : String :=
  "contract_analysis_" ++ contractNameClean name ++ "_" ++ ts ++ ".json"

/-- `save_analysis_results` (lines 621-646). The three fallible effects in
the `try` block — `Path(output_dir).mkdir`, `asdict`-based serialization,
and the file write — are the three `Except String Unit` arguments; the
surrounding try/except turns any raised exception into `none`, and on
success the function returns `str(filepath)` with `/` as path separator. -/
def save_analysis_results (name ts output_dir : String)
    (mkdirRes serializeRes writeRes : Except String Unit) : Option String :=
  (do
    let _ ← mkdirRes
    let filename := analysisFilename name ts
    let _ ← serializeRes
    let _ ← writeRes
    pure (output_dir ++ "/" ++ filename) : Except String String).toOption

/-- The pages the extraction loop keeps, paired with their 0-based indices
counted from `n`: pages whose `extract_text()` succeeded and whose text is
non-empty after stripping. Used to state which pages contribute a marker. -/
def readableFrom : ℕ → List (Except String String) → List (ℕ × String)
  | _, [] => []
  | n, Except.ok t :: rest =>
      if pageHasText t then (n, t) :: readableFrom (n + 1) rest
      else readableFrom (n + 1) rest
  | n, Except.error _ :: rest => readableFrom (n + 1) rest

/-- The two lines a kept page contributes to `text_content`: its marker,
then its own text. -/
def pageBlock (p : ℕ × String) : List String :=
  [pageMarker p.1, p.2]

/-- Sanitization exactly as claim C8 words it — remove every character that
is not alphanumeric, space, hyphen, or underscore — without the trailing
`.strip()` that line 630 of the source also applies. Kept separate so that
the code's `contractNameClean` can be compared against it. -/
def claimSanitized (name : String) : String :=
  String.mk (name.data.filter isAllowedChar)

/-- C1: for every contract text and contract name, and for any combination of
stage successes and failures, `analyze_contract` returns a
`ContractAnalysisResult` whose `agent_responses` list has exactly 3 entries in
the fixed order [structure, legal, negotiation] and whose `traceability_map`
has exactly 4 entries. -/
theorem analyze_contract_shape (text name ts : String)
    (s l g m : CallResult) :
    (analyze_contract text name ts s l g m).agent_responses.length = 3 ∧
    (analyze_contract text name ts s l g m).agent_responses.map
        (fun a => a.analysis_type) =
      ["structural_analysis", "legal_compliance", "negotiation_strategy"] ∧
    (analyze_contract text name ts s l g m).agent_responses.map
        (fun a => a.agent_name) =
      ["ContractStructureAgent", "LegalFrameworkAgent", "NegotiationAgent"] ∧
    (analyze_contract text name ts s l g m).traceability_map.length = 4 := by
  cases s <;> cases l <;> cases g <;> cases m <;>
    simp [analyze_contract, structureStage, legalStage, negotiationStage]

/-- C2: whenever a specialist stage's agent call raises, the `AgentResponse`
produced for that stage has `risk_level` `"HIGH"` for the structure and legal
stages and `"MEDIUM"` for the negotiation stage, with confidence scores 0.3,
0.2 and 0.4 respectively, each strictly lower than the same stage's success
default (0.8, 0.85, 0.75). -/
theorem failed_stage_degradation :
    (∀ (text name ts e : String) (l g m : CallResult),
      ∃ a, (analyze_contract text name ts (Except.error e) l g m).agent_responses.get? 0 =
          some a ∧
        a.risk_level = "HIGH" ∧ a.confidence_score = 0.3 ∧
        ∀ c, a.confidence_score <
          (structureStage ts (Except.ok c)).confidence_score) ∧
    (∀ (text name ts e : String) (s g m : CallResult),
      ∃ a, (analyze_contract text name ts s (Except.error e) g m).agent_responses.get? 1 =
          some a ∧
        a.risk_level = "HIGH" ∧ a.confidence_score = 0.2 ∧
        ∀ c, a.confidence_score <
          (legalStage ts (Except.ok c)).confidence_score) ∧
    (∀ (text name ts e : String) (s l m : CallResult),
      ∃ a, (analyze_contract text name ts s l (Except.error e) m).agent_responses.get? 2 =
          some a ∧
        a.risk_level = "MEDIUM" ∧ a.confidence_score = 0.4 ∧
        ∀ c, a.confidence_score <
          (negotiationStage ts (Except.ok c)).confidence_score) := by
  refine ⟨?_, ?_, ?_⟩
  · intro text name ts e l g m
    refine ⟨structureStage ts (Except.error e), ?_, ?_, ?_, ?_⟩
    · cases m <;> rfl
    · rfl
    · rfl
    · intro c
      simp only [structureStage]
      norm_num
  · intro text name ts e s g m
    refine ⟨legalStage ts (Except.error e), ?_, ?_, ?_, ?_⟩
    · cases m <;> rfl
    · rfl
    · rfl
    · intro c
      simp only [legalStage]
      norm_num
  · intro text name ts e s l m
    refine ⟨negotiationStage ts (Except.error e), ?_, ?_, ?_, ?_⟩
    · cases m <;> rfl
    · rfl
    · rfl
    · intro c
      simp only [negotiationStage]
      norm_num

/-- C3: whenever a specialist stage's agent call succeeds, the
`AgentResponse` produced for that stage stores the raw model output under the
findings key `"raw_response"`, has `confidence_score` equal to the stage's
fixed default (structure 0.8, legal 0.85, negotiation 0.75), and has
`risk_level` `"PENDING"`, regardless of the content of the model's reply. -/
theorem success_stage_wrapping :
    (∀ (text name ts c : String) (l g m : CallResult),
      ∃ a, (analyze_contract text name ts (Except.ok c) l g m).agent_responses.get? 0 =
          some a ∧
        a.findings = [("raw_response", c)] ∧
        a.confidence_score = 0.8 ∧ a.risk_level = "PENDING") ∧
    (∀ (text name ts c : String) (s g m : CallResult),
      ∃ a, (analyze_contract text name ts s (Except.ok c) g m).agent_responses.get? 1 =
          some a ∧
        a.findings = [("raw_response", c)] ∧
        a.confidence_score = 0.85 ∧ a.risk_level = "PENDING") ∧
    (∀ (text name ts c : String) (s l m : CallResult),
      ∃ a, (analyze_contract text name ts s l (Except.ok c) m).agent_responses.get? 2 =
          some a ∧
        a.findings = [("raw_response", c)] ∧
        a.confidence_score = 0.75 ∧ a.risk_level = "PENDING") := by
  refine ⟨?_, ?_, ?_⟩
  · intro text name ts c l g m
    exact ⟨structureStage ts (Except.ok c), by cases m <;> rfl, rfl, rfl, rfl⟩
  · intro text name ts c s g m
    exact ⟨legalStage ts (Except.ok c), by cases m <;> rfl, rfl, rfl, rfl⟩
  · intro text name ts c s l m
    exact ⟨negotiationStage ts (Except.ok c), by cases m <;> rfl, rfl, rfl, rfl⟩

/-- C4: whenever the manager stage's call raises, `analyze_contract` still
returns a result whose `consolidated_findings` has an `error` entry and no
`manager_synthesis` entry, whose `risk_assessment` records an overall risk
that reads `UNKNOWN`, and whose `traceability_map` entry for the manager is
the manager agent name suffixed with `"(FAILED)"`, while the three specialist
traceability entries are identical to the manager-success ones. -/
theorem manager_failure_degradation (text name ts e : String)
    (s l g : CallResult) :
    List.lookup "manager_synthesis"
        (analyze_contract text name ts s l g (Except.error e)).consolidated_findings =
      none ∧
    List.lookup "error"
        (analyze_contract text name ts s l g (Except.error e)).consolidated_findings =
      some ("Manager consolidation failed: " ++ e) ∧
    (∃ v, List.lookup "overall_risk"
        (analyze_contract text name ts s l g (Except.error e)).risk_assessment =
          some v ∧
      ∃ q, v = "UNKNOWN" ++ q) ∧
    List.lookup "manager_agent"
        (analyze_contract text name ts s l g (Except.error e)).traceability_map =
      some ("ContractAnalysisManager" ++ " (FAILED)") ∧
    (∀ key, key = "structure_agent" ∨ key = "legal_agent" ∨ key = "negotiation_agent" →
      ∀ c, List.lookup key
          (analyze_contract text name ts s l g (Except.error e)).traceability_map =
        List.lookup key
          (analyze_contract text name ts s l g (Except.ok c)).traceability_map) := by
  refine ⟨rfl, rfl, ⟨"UNKNOWN - Analysis incomplete", rfl,
    " - Analysis incomplete", rfl⟩, rfl, ?_⟩
  rintro key (rfl | rfl | rfl) c <;> rfl

/-- C4 witness: at a concrete run where every specialist succeeded and the
manager raised, the structure traceability entry agrees with the
manager-success one. -/
theorem manager_failure_degradation_witness :
    List.lookup "structure_agent"
        (analyze_contract "text" "Contract" "T" (Except.ok "a")
          (Except.ok "b") (Except.ok "c") (Except.error "boom")).traceability_map =
      List.lookup "structure_agent"
        (analyze_contract "text" "Contract" "T" (Except.ok "a")
          (Except.ok "b") (Except.ok "c") (Except.ok "m")).traceability_map :=
  (manager_failure_degradation "text" "Contract" "T" "boom"
    (Except.ok "a") (Except.ok "b") (Except.ok "c")).2.2.2.2
    "structure_agent" (Or.inl rfl) "m"

/-- C5: a raised exception in any one stage's call never prevents the other
stages from contributing, and `analyze_contract` never propagates an
exception: it is a total function into `ContractAnalysisResult`, each
specialist entry of `agent_responses` depends only on its own stage's
outcome, and the manager's `consolidated_findings` is unchanged by any
combination of specialist failures. -/
theorem stage_failure_isolation (text name ts : String)
    (s l g m : CallResult) :
    (analyze_contract text name ts s l g m).agent_responses =
      [structureStage ts s, legalStage ts l, negotiationStage ts g] ∧
    (∀ s' l' g',
      (analyze_contract text name ts s' l' g' m).consolidated_findings =
        (analyze_contract text name ts s l g m).consolidated_findings ∧
      (analyze_contract text name ts s' l' g' m).traceability_map =
        (analyze_contract text name ts s l g m).traceability_map) ∧
    (∀ s', (analyze_contract text name ts s' l g m).agent_responses.tail =
      (analyze_contract text name ts s l g m).agent_responses.tail) := by
  refine ⟨by cases m <;> rfl, ?_, ?_⟩
  · intro s' l' g'
    cases m <;> exact ⟨rfl, rfl⟩
  · intro s'
    cases m <;> rfl

/-- C10: in both the manager-success and the manager-failure result, the
`traceability_map` value for each specialist role equals the `agent_name` of
the `AgentResponse` at the corresponding position of `agent_responses`
(index 0 for `structure_agent`, 1 for `legal_agent`, 2 for
`negotiation_agent`), whether that stage succeeded or failed. -/
theorem traceability_matches_agent_names (text name ts : String)
    (s l g m : CallResult) :
    List.lookup "structure_agent"
        (analyze_contract text name ts s l g m).traceability_map =
      ((analyze_contract text name ts s l g m).agent_responses.get? 0).map
        (fun a => a.agent_name) ∧
    List.lookup "legal_agent"
        (analyze_contract text name ts s l g m).traceability_map =
      ((analyze_contract text name ts s l g m).agent_responses.get? 1).map
        (fun a => a.agent_name) ∧
    List.lookup "negotiation_agent"
        (analyze_contract text name ts s l g m).traceability_map =
      ((analyze_contract text name ts s l g m).agent_responses.get? 2).map
        (fun a => a.agent_name) := by
  cases s <;> cases l <;> cases g <;> cases m <;> exact ⟨rfl, rfl, rfl⟩

theorem extractPages_eq_flatten (ps : List (Except String String)) :
    ∀ n, extractPages n ps = ((readableFrom n ps).map pageBlock).flatten := by
  induction ps with
  | nil => intro n; rfl
  | cons p rest ih =>
    intro n
    cases p with
    | ok t =>
      cases h : pageHasText t <;>
        simp [extractPages, readableFrom, h, pageBlock, pageMarker, ih]
    | error e => simp [extractPages, readableFrom, ih]

theorem readableFrom_le (ps : List (Except String String)) :
    ∀ n p, p ∈ readableFrom n ps → n ≤ p.1 := by
  induction ps with
  | nil => intro n p hp; simp [readableFrom] at hp
  | cons q rest ih =>
    intro n p hp
    cases q with
    | ok t =>
      cases h : pageHasText t
      · rw [readableFrom, h] at hp
        simp only [Bool.false_eq_true, if_false] at hp
        exact Nat.le_of_succ_le (ih (n + 1) p hp)
      · rw [readableFrom, h] at hp
        simp only [if_true] at hp
        rcases List.mem_cons.mp hp with h1 | h2
        · subst h1; exact Nat.le_refl n
        · exact Nat.le_of_succ_le (ih (n + 1) p h2)
    | error e =>
      rw [readableFrom] at hp
      exact Nat.le_of_succ_le (ih (n + 1) p hp)

theorem readableFrom_pairwise (ps : List (Except String String)) :
    ∀ n, List.Pairwise (fun a b => a.1 < b.1) (readableFrom n ps) := by
  induction ps with
  | nil => intro n; simp [readableFrom]
  | cons q rest ih =>
    intro n
    cases q with
    | ok t =>
      cases h : pageHasText t
      · rw [readableFrom, h]
        simpa using ih (n + 1)
      · rw [readableFrom, h]
        simp only [if_true]
        exact List.Pairwise.cons
          (fun b hb => Nat.lt_of_succ_le (readableFrom_le rest (n + 1) b hb))
          (ih (n + 1))
    | error e =>
      rw [readableFrom]
      exact ih (n + 1)

theorem readableFrom_mem_spec (ps : List (Except String String)) :
    ∀ n p, p ∈ readableFrom n ps →
      ∃ j, p.1 = n + j ∧ ps.get? j = some (Except.ok p.2) ∧
        pageHasText p.2 = true := by
  induction ps with
  | nil => intro n p hp; simp [readableFrom] at hp
  | cons q rest ih =>
    intro n p hp
    have step : p ∈ readableFrom (n + 1) rest →
        ∃ j, p.1 = n + j ∧ (q :: rest).get? j = some (Except.ok p.2) ∧
          pageHasText p.2 = true := by
      intro hmem
      obtain ⟨j, hj, hget, htext⟩ := ih (n + 1) p hmem
      exact ⟨j + 1, by omega, hget, htext⟩
    cases q with
    | ok t =>
      cases h : pageHasText t
      · rw [readableFrom, h] at hp
        simp only [Bool.false_eq_true, if_false] at hp
        exact step hp
      · rw [readableFrom, h] at hp
        simp only [if_true] at hp
        rcases List.mem_cons.mp hp with h1 | h2
        · subst h1
          exact ⟨0, by omega, rfl, h⟩
        · exact step h2
    | error e =>
      rw [readableFrom] at hp
      exact step hp

theorem readableFrom_mem_of_get (ps : List (Except String String)) :
    ∀ n j t, ps.get? j = some (Except.ok t) → pageHasText t = true →
      (n + j, t) ∈ readableFrom n ps := by
  induction ps with
  | nil => intro n j t hget; simp at hget
  | cons q rest ih =>
    intro n j t hget htext
    cases j with
    | zero =>
      simp only [List.get?] at hget
      cases hget
      rw [readableFrom, htext]
      simp
    | succ j =>
      simp only [List.get?] at hget
      have hmem := ih (n + 1) j t hget htext
      have harith : n + (j + 1) = (n + 1) + j := by omega
      rw [harith]
      cases q with
      | ok u =>
        cases h : pageHasText u <;> rw [readableFrom, h] <;> simp [hmem]
      | error e =>
        rw [readableFrom]
        exact hmem

theorem extractPages_nil_of_blank (ps : List (Except String String)) :
    ∀ n, (∀ t, Except.ok t ∈ ps → pageHasText t = false) →
      extractPages n ps = [] := by
  induction ps with
  | nil => intro n _; rfl
  | cons q rest ih =>
    intro n hblank
    have hrest : ∀ t, Except.ok t ∈ rest → pageHasText t = false :=
      fun t ht => hblank t (List.mem_cons_of_mem q ht)
    cases q with
    | ok t =>
      have h : pageHasText t = false := hblank t (List.mem_cons_self _ _)
      rw [extractPages, h]
      simpa using ih (n + 1) hrest
    | error e =>
      rw [extractPages]
      exact ih (n + 1) hrest

theorem extractPages_ne_nil (ps : List (Except String String)) (n : ℕ)
    (h : readableFrom n ps ≠ []) : extractPages n ps ≠ [] := by
  rw [extractPages_eq_flatten]
  cases hr : readableFrom n ps with
  | nil => exact absurd hr h
  | cons p rest => simp [pageBlock]

/-- C6: when the file exists and is readable and the PDF has at least one
page whose extraction yields non-empty text, `extract_text_from_pdf` returns
the newline join of one marker-plus-text block per such page; the kept pages
carry strictly ascending page indices, each kept index really is a page with
non-blank extracted text, every page with non-blank extracted text is kept,
and pages whose extraction raises (or is blank) contribute nothing. -/
theorem extract_text_page_markers (pages : List (Except String String))
    (hne : pages ≠ []) (hsome : readableFrom 0 pages ≠ []) :
    extract_text_from_pdf true true pages =
      some (String.intercalate "\n"
        (((readableFrom 0 pages).map pageBlock).flatten)) ∧
    List.Sorted (· < ·) ((readableFrom 0 pages).map Prod.fst) ∧
    (∀ p ∈ readableFrom 0 pages,
      pages.get? p.1 = some (Except.ok p.2) ∧ pageHasText p.2 = true) ∧
    (∀ j t, pages.get? j = some (Except.ok t) → pageHasText t = true →
      (j, t) ∈ readableFrom 0 pages) := by
  refine ⟨?_, ?_, ?_, ?_⟩
  · have hlen : pages.length ≠ 0 := by
      simpa using fun hnil => hne (List.length_eq_zero.mp hnil)
    have hep : extractPages 0 pages ≠ [] := extractPages_ne_nil pages 0 hsome
    rw [extract_text_from_pdf]
    simp only [Bool.not_true, Bool.false_eq_true, if_false, hlen, if_true]
    rw [if_neg (by simpa using hep)]
    rw [extractPages_eq_flatten]
  · rw [List.Sorted, List.pairwise_map]
    exact readableFrom_pairwise pages 0
  · intro p hp
    obtain ⟨j, hj, hget, htext⟩ := readableFrom_mem_spec pages 0 p hp
    refine ⟨?_, htext⟩
    rw [hj, Nat.zero_add]
    exact hget
  · intro j t hget htext
    have := readableFrom_mem_of_get pages 0 j t hget htext
    simpa using this

/-- C6 witness: a four-page PDF whose second page raises and whose third page
is whitespace-only produces markers for pages 1 and 4 only. -/
theorem extract_text_page_markers_witness :
    extract_text_from_pdf true true
        [Except.ok "hello", Except.error "boom", Except.ok " ",
         Except.ok "world"] =
      some "--- Page 1 ---\nhello\n--- Page 4 ---\nworld" := by
  have h := (extract_text_page_markers
    [Except.ok "hello", Except.error "boom", Except.ok " ", Except.ok "world"]
    (List.cons_ne_nil _ _) (by decide)).1
  rw [h]
  decide

/-- C7: `extract_text_from_pdf` returns `none` — and, being a total
function, never raises — whenever the file does not exist, the file is not
readable, the PDF has zero pages, or no page yields non-empty text. -/
theorem extract_text_failure_none (pathExists canRead : Bool)
    (pages : List (Except String String)) :
    (pathExists = false →
      extract_text_from_pdf pathExists canRead pages = none) ∧
    (canRead = false →
      extract_text_from_pdf pathExists canRead pages = none) ∧
    (pages = [] →
      extract_text_from_pdf pathExists canRead pages = none) ∧
    ((∀ t, Except.ok t ∈ pages → pageHasText t = false) →
      extract_text_from_pdf pathExists canRead pages = none) := by
  refine ⟨?_, ?_, ?_, ?_⟩
  · intro h; subst h; rfl
  · intro h; subst h
    cases pathExists <;> rfl
  · intro h; subst h
    cases pathExists <;> cases canRead <;> rfl
  · intro hblank
    cases pathExists with
    | false => rfl
    | true =>
      cases canRead with
      | false => rfl
      | true =>
        cases pages with
        | nil => rfl
        | cons q rest =>
          have hep : extractPages 0 (q :: rest) = [] :=
            extractPages_nil_of_blank (q :: rest) 0 hblank
          rw [extract_text_from_pdf]
          simp [hep]

/-- C7 witness: the four failure cases at concrete inputs. -/
theorem extract_text_failure_none_witness :
    extract_text_from_pdf false true [Except.ok "x"] = none ∧
    extract_text_from_pdf true false [Except.ok "x"] = none ∧
    extract_text_from_pdf true true [] = none ∧
    extract_text_from_pdf true true [Except.ok " ", Except.error "b"] = none := by
  refine ⟨(extract_text_failure_none false true [Except.ok "x"]).1 rfl,
    (extract_text_failure_none true false [Except.ok "x"]).2.1 rfl,
    (extract_text_failure_none true true []).2.2.1 rfl,
    (extract_text_failure_none true true
      [Except.ok " ", Except.error "b"]).2.2.2 ?_⟩
  intro t ht
  rcases List.mem_cons.mp ht with h1 | h2
  · cases h1; decide
  · simp at h2

/-- C8 counterexample: the claim describes the sanitized name as obtained by
character removal alone, but line 630 also applies a final `.strip()`. For
the name `" A"` (leading space — an allowed character) the code's filename
is `contract_analysis_A_<ts>.json`, not the claimed
`contract_analysis_ A_<ts>.json`. -/
theorem filename_sanitization_cex :
    analysisFilename " A" "20250101_000000" ≠
      "contract_analysis_" ++ claimSanitized " A" ++ "_" ++
        "20250101_000000" ++ ".json" := by
  decide

/-- C8 (amended): `save_analysis_results` builds the filename by removing
every character that is not alphanumeric, space, hyphen, or underscore and
then stripping leading and trailing whitespace; the result is
`contract_analysis_<sanitized>_<ts>.json`; the sanitized name contains only
allowed characters before the final strip; and `"Acme/Co.: NDA?"` sanitizes
to `"AcmeCo NDA"`. -/
theorem filename_sanitization (name ts output_dir : String) :
    contractNameClean name = pyStrip (claimSanitized name) ∧
    (∀ c ∈ (claimSanitized name).data, isAllowedChar c = true) ∧
    save_analysis_results name ts output_dir
        (Except.ok ()) (Except.ok ()) (Except.ok ()) =
      some (output_dir ++ "/" ++ ("contract_analysis_" ++
        pyStrip (claimSanitized name) ++ "_" ++ ts ++ ".json")) ∧
    contractNameClean "Acme/Co.: NDA?" = "AcmeCo NDA" := by
  refine ⟨rfl, ?_, rfl, by decide⟩
  intro c hc
  exact (List.mem_filter.mp hc).2

/-- C8 witness: the character kept by sanitizing the name `"A"` is indeed an
allowed one. -/
theorem filename_sanitization_witness : isAllowedChar 'A' = true :=
  (filename_sanitization "A" "T" "out").2.1 'A' (by decide)

/-- C9: if directory creation, serialization, or the file write raises,
`save_analysis_results` returns `none` instead of raising (it is a total
function); when every step succeeds it returns the path of the written
file. -/
theorem save_results_error_handling (name ts output_dir : String)
    (mkdirRes serializeRes writeRes : Except String Unit) :
    (∀ e, save_analysis_results name ts output_dir
        (Except.error e) serializeRes writeRes = none) ∧
    (∀ e, save_analysis_results name ts output_dir
        mkdirRes (Except.error e) writeRes = none) ∧
    (∀ e, save_analysis_results name ts output_dir
        mkdirRes serializeRes (Except.error e) = none) ∧
    save_analysis_results name ts output_dir
        (Except.ok ()) (Except.ok ()) (Except.ok ()) =
      some (output_dir ++ "/" ++ analysisFilename name ts) := by
  refine ⟨?_, ?_, ?_, rfl⟩
  · intro e; rfl
  · intro e; cases mkdirRes <;> rfl
  · intro e; cases mkdirRes <;> cases serializeRes <;> rfl

end ContractAnalysis
